import Mathlib

/-!
Shallow embedding of the emubayer library (src/lib.rs): conversion of a
decoded RGB(A) image into a Bayer-mosaiced 16-bit raw buffer, and the
observable parts of the minimal DNG writer.  Machine integers are modelled
as Nat with explicit reductions modulo 2 ^ 16 (u16 arithmetic) and
2 ^ 32 (u32 arithmetic) where Rust wraps.  Rust indexing into `Vec` is
modelled with `List.getD`/`List.set`; the Rust code only indexes in
bounds on inputs satisfying the decoded-image invariants, where the two
semantics agree.
-/

namespace Emubayer

/-- PNG bit depths accepted by the decoder (src/lib.rs, `enum BitDepth`). -/
inductive BitDepth
  | One
  | Two
  | Four
  | Eight
  | Sixteen
deriving DecidableEq

/-- Numeric value of a bit depth (src/lib.rs, `BitDepth::to_u32`). -/
def BitDepth.to_u32 : BitDepth → Nat
  | .One => 1
  | .Two => 2
  | .Four => 4
  | .Eight => 8
  | .Sixteen => 16

/-- Color types accepted by the decoder (src/lib.rs, `enum ColorType`). -/
inductive ColorType
  | RGB
  | RGBA
deriving DecidableEq

/-- The channel-count multiplier chosen inside `RgbImage::to_raw`
(src/lib.rs, the `match self.color_type` giving 3 for RGB and 4 for RGBA). -/
def ColorType.multiplier : ColorType → Nat
  | .RGB => 3
  | .RGBA => 4

/-- Bayer pattern variants (src/lib.rs, `enum BayerPattern`). -/
inductive BayerPattern
  | RGGB
  | BGGR
  | GRBG
  | GBRG
deriving DecidableEq

/-- Channel-offset table of a pattern (src/lib.rs, `BayerPattern::color_offsets`):
for each 2x2 tile slot, the source channel index (0 = R, 1 = G, 2 = B). -/
def BayerPattern.color_offsets : BayerPattern → List Nat
  | .RGGB => [0, 1, 1, 2]
  | .BGGR => [2, 1, 1, 0]
  | .GRBG => [1, 0, 2, 1]
  | .GBRG => [1, 2, 0, 1]

/-- Display string of a pattern (src/lib.rs, `impl fmt::Display for BayerPattern`). -/
def BayerPattern.display : BayerPattern → String
  | .RGGB => "RGGB"
  | .BGGR => "BGGR"
  | .GRBG => "GRBG"
  | .GBRG => "GBRG"

/-- ASCII model of Rust `str::to_uppercase` as used by `BayerPattern::from_str`
(the inputs of interest are ASCII, where Rust and this model agree). -/
def rustToUppercase (s : String) : String :=
  String.mk (s.toList.map Char.toUpper)

/-- Model of Rust `str::trim`: remove leading and trailing whitespace
(for ASCII whitespace, Rust `char::is_whitespace` and `Char.isWhitespace` agree). -/
def rustTrim (s : String) : String :=
  String.mk (((s.toList.dropWhile Char.isWhitespace).reverse.dropWhile
    Char.isWhitespace).reverse)

/-- Pattern parsing (src/lib.rs, `BayerPattern::from_str`).  The Rust code
matches on `bayer_pattern.to_uppercase().trim()` and, in the catch-all arm,
terminates the program with `panic!`; the panic arm is modelled as `none`. -/
def BayerPattern.from_str (bayer_pattern : String) : Option BayerPattern :=
  let t := rustTrim (rustToUppercase bayer_pattern)
  if t = "RGGB" then some BayerPattern.RGGB
  else if t = "BGGR" then some BayerPattern.BGGR
  else if t = "GRBG" then some BayerPattern.GRBG
  else if t = "GBRG" then some BayerPattern.GBRG
  else none

/-- A decoded image (src/lib.rs, `struct RgbImage`): flat byte buffer plus
dimensions, color type and bit depth. -/
structure RgbImage where
  width : Nat
  height : Nat
  data : List Nat
  color_type : ColorType
  bit_depth : BitDepth
deriving DecidableEq

/-- Even-cropped width (src/lib.rs, `RgbImage::even_width`). -/
def RgbImage.even_width (img : RgbImage) : Nat :=
  if img.width % 2 = 0 then img.width else img.width - 1

/-- Even-cropped height (src/lib.rs, `RgbImage::even_height`). -/
def RgbImage.even_height (img : RgbImage) : Nat :=
  if img.height % 2 = 0 then img.height else img.height - 1

/-- Output sample count (src/lib.rs, `RgbImage::even_size`). -/
def RgbImage.even_size (img : RgbImage) : Nat :=
  img.even_width * img.even_height

/-- The raw mosaiced image (src/lib.rs, `struct RawImage`): 16-bit samples in
row-major order plus the pattern used to produce them. -/
structure RawImage where
  width : Nat
  height : Nat
  data : List Nat
  bayer_pattern : BayerPattern
deriving DecidableEq

/-- Source byte index used by one sample write in `RgbImage::to_raw`
(src/lib.rs: `(raw_index + odd_offset) * multiplier + color_offsets[k]`). -/
def srcIndex (multiplier odd_offset co_k raw_index : Nat) : Nat :=
  (raw_index + odd_offset) * multiplier + co_k

/-- One sample write of `RgbImage::to_raw`: store
`(self.data[srcIndex] as u16) << shift` at `raw_index`.  The u16 shift
truncates modulo 2 ^ 16. -/
def writeSample (d : List Nat) (shift multiplier odd_offset co_k raw_index : Nat)
    (raw : List Nat) : List Nat :=
  raw.set raw_index (d.getD (srcIndex multiplier odd_offset co_k raw_index) 0
    * 2 ^ shift % 65536)

/-- The body of the tile loop in `RgbImage::to_raw` (src/lib.rs): the four
writes for the 2x2 tile anchored at (row, column), in source order
top-left, top-right, bottom-right, bottom-left, with the raw indices the
source computes (`row*even_width+column`, `+1`, `+even_width`, `-1`). -/
def writeTile (d : List Nat) (shift multiplier odd_offset ew : Nat)
    (co : List Nat) (row column : Nat) (raw : List Nat) : List Nat :=
  let i0 := row * ew + column
  writeSample d shift multiplier odd_offset (co.getD 2 0) (i0 + ew)
    (writeSample d shift multiplier odd_offset (co.getD 3 0) (i0 + ew + 1)
      (writeSample d shift multiplier odd_offset (co.getD 1 0) (i0 + 1)
        (writeSample d shift multiplier odd_offset (co.getD 0 0) i0 raw)))

/-- The index list of Rust `(0..n).step_by(2)`. -/
def stepBy2 (n : Nat) : List Nat :=
  (List.range ((n + 1) / 2)).map (fun k => 2 * k)

/-- The mosaic transform (src/lib.rs, `RgbImage::to_raw`): iterate over 2x2
tiles of the even-cropped image, writing the four shifted source bytes of
each tile into a zero-initialized buffer of `even_size` samples.
`odd_offset` is `row` when the source width is odd and 0 otherwise. -/
def RgbImage.to_raw (img : RgbImage) (bayer_pattern : BayerPattern) : RawImage :=
  let co := bayer_pattern.color_offsets
  let shift := 16 - img.bit_depth.to_u32
  let multiplier := img.color_type.multiplier
  let ew := img.even_width
  let raw_data :=
    (stepBy2 img.even_height).foldl (fun acc row =>
      (stepBy2 img.even_width).foldl (fun acc2 column =>
        let odd_offset := if img.width % 2 = 0 then 0 else row
        writeTile img.data shift multiplier odd_offset ew co row column acc2)
        acc)
      (List.replicate img.even_size 0)
  { width := img.even_width, height := img.even_height, data := raw_data,
    bayer_pattern := bayer_pattern }

/-- The four source byte indices fetched for one 2x2 tile, in the order the
writes of `writeTile` perform them. -/
def tileFetchIndices (multiplier odd_offset ew : Nat) (co : List Nat)
    (row column : Nat) : List Nat :=
  let i0 := row * ew + column
  [srcIndex multiplier odd_offset (co.getD 0 0) i0,
   srcIndex multiplier odd_offset (co.getD 1 0) (i0 + 1),
   srcIndex multiplier odd_offset (co.getD 3 0) (i0 + ew + 1),
   srcIndex multiplier odd_offset (co.getD 2 0) (i0 + ew)]

/-- All source byte indices `RgbImage::to_raw` fetches from `self.data`,
obtained by instantiating `srcIndex` over the same tile iteration that
`to_raw` performs: the read footprint of the transform. -/
def RgbImage.fetchIndices (img : RgbImage) (bayer_pattern : BayerPattern) :
    List Nat :=
  (stepBy2 img.even_height).flatMap (fun row =>
    (stepBy2 img.even_width).flatMap (fun column =>
      let odd_offset := if img.width % 2 = 0 then 0 else row
      tileFetchIndices img.color_type.multiplier odd_offset img.even_width
        bayer_pattern.color_offsets row column))

/-- Little-endian serialization of one 16-bit sample, as performed by
`image_bytes.write_u16::<LittleEndian>(val)` in `RawImage::save_as_dng`. -/
def u16LEBytes (v : Nat) : List Nat :=
  [v % 256, v / 256 % 256]

/-- The strip payload built at the start of `RawImage::save_as_dng`
(src/lib.rs): the loop pushing each sample as two little-endian bytes. -/
def RawImage.image_bytes (raw : RawImage) : List Nat :=
  raw.data.foldl (fun acc v => acc ++ u16LEBytes v) []

/-- The LONG value stored in the StripByteCounts IFD entry
(src/lib.rs: `LONG![self.width * self.height * 2]`, u32 arithmetic). -/
def RawImage.stripByteCountsValue (raw : RawImage) : Nat :=
  raw.width * raw.height * 2 % 4294967296

/-- Outcome of the external `TiffFile::write_to` call. -/
inductive WriteOutcome
  | success
  | ioFailure
deriving DecidableEq

/-- Observable result of `RawImage::save_as_dng`. -/
inductive SaveResult
  | written (bytes : List Nat)
  | aborted
deriving DecidableEq

/-- Error-handling structure of `RawImage::save_as_dng` (src/lib.rs): the
function returns `()` and calls `.unwrap()` on the result of `write_to`,
so an I/O failure terminates the program (`aborted`) instead of being
returned; on success the strip payload written is `image_bytes`. -/
def RawImage.save_as_dng (raw : RawImage) (w : WriteOutcome) : SaveResult :=
  match w with
  | .success => .written raw.image_bytes
  | .ioFailure => .aborted

/-- PNG color types reported by the external decoder (the `png` crate). -/
inductive PngColorType
  | Grayscale
  | RGB
  | Indexed
  | GrayscaleAlpha
  | RGBA
deriving DecidableEq

/-- Decoder header information returned by `read_info`. -/
structure PngInfo where
  width : Nat
  height : Nat
  color_type : PngColorType
  bit_depth : BitDepth
deriving DecidableEq

/-- Error-mapping structure of `RgbImage::from_file` (src/lib.rs).  The PNG
decoder is the external collaborator, so its outcomes are parameters:
`openOk` is whether `File::open` succeeded, `infoResult` the outcome of
`read_info`, and `frameResult` the outcome of `next_frame` (the decoded
byte buffer on success).  Each failure is mapped to the distinct static
error string the source returns via `map_err`/`return Err`. -/
def RgbImage.from_file (openOk : Bool) (infoResult : Option PngInfo)
    (frameResult : Option (List Nat)) : Except String RgbImage :=
  if !openOk then Except.error ("PNG image couldn\x27t be opened.")
  else
    match infoResult with
    | none => Except.error ("This PNG file appears to be corrupted.")
    | some info =>
      match (match info.color_type with
             | .RGB => some ColorType.RGB
             | .RGBA => some ColorType.RGBA
             | _ => none) with
      | none => Except.error ("PNG image needs to be RGB or RGBA Color Type.")
      | some ct =>
        match frameResult with
        | none => Except.error ("An error occurred interpreting this PNG image.")
        | some data =>
          Except.ok { width := info.width, height := info.height, data := data,
                      color_type := ct, bit_depth := info.bit_depth }

/-- The 2x2 solid-color test image of the spec: every pixel has
R = 0xAA, G = 0xBB, B = 0xCC, 8-bit RGB. -/
def img2x2 : RgbImage :=
  { width := 2, height := 2,
    data := [0xAA, 0xBB, 0xCC, 0xAA, 0xBB, 0xCC, 0xAA, 0xBB, 0xCC, 0xAA, 0xBB, 0xCC],
    color_type := ColorType.RGB, bit_depth := BitDepth.Eight }

/-- A 3-wide, 2-high 8-bit RGB image (odd width): pixel (r, c) has bytes
`10*r + c` in each channel, so each byte identifies its source pixel. -/
def img3x2 : RgbImage :=
  { width := 3, height := 2,
    data := [0, 0, 0, 1, 1, 1, 2, 2, 2, 10, 10, 10, 11, 11, 11, 12, 12, 12],
    color_type := ColorType.RGB, bit_depth := BitDepth.Eight }

/-- A 2-wide, 3-high 8-bit RGB image (odd height). -/
def img2x3 : RgbImage :=
  { width := 2, height := 3,
    data := [0, 0, 0, 1, 1, 1, 10, 10, 10, 11, 11, 11, 20, 20, 20, 21, 21, 21],
    color_type := ColorType.RGB, bit_depth := BitDepth.Eight }

/-- A concrete 2x2 raw image (the output of `img2x2.to_raw RGGB`). -/
def raw2x2 : RawImage :=
  { width := 2, height := 2, data := [0xAA00, 0xBB00, 0xBB00, 0xCC00],
    bayer_pattern := BayerPattern.RGGB }

/-- Fold invariant: a property preserved by every step (whose argument comes
from the folded list) holds of the result. -/
theorem foldl_inv {α β : Type} (Inv : β → Prop) :
    ∀ (l : List α) (f : β → α → β) (acc : β),
      (∀ acc a, a ∈ l → Inv acc → Inv (f acc a)) → Inv acc → Inv (l.foldl f acc)
  | [], _, _, _, h0 => h0
  | x :: xs, f, acc, h, h0 =>
    foldl_inv Inv xs f (f acc x)
      (fun acc a ha => h acc a (List.mem_cons_of_mem _ ha))
      (h acc x (List.mem_cons_self _ _) h0)

/-- A dimension-preservation fact: one sample write keeps the buffer length. -/
theorem length_writeSample (d : List Nat) (s m o c i : Nat) (raw : List Nat) :
    (writeSample d s m o c i raw).length = raw.length := by
  simp [writeSample]

/-- A dimension-preservation fact: one tile keeps the buffer length. -/
theorem length_writeTile (d : List Nat) (s m o ew : Nat) (co : List Nat)
    (row column : Nat) (raw : List Nat) :
    (writeTile d s m o ew co row column raw).length = raw.length := by
  simp [writeTile, writeSample]

/-- The raw buffer of `to_raw`, written as the explicit double fold. -/
theorem to_raw_data (img : RgbImage) (p : BayerPattern) :
    (img.to_raw p).data =
      (stepBy2 img.even_height).foldl (fun acc row =>
        (stepBy2 img.even_width).foldl (fun acc2 column =>
          writeTile img.data (16 - img.bit_depth.to_u32)
            img.color_type.multiplier
            (if img.width % 2 = 0 then 0 else row) img.even_width
            p.color_offsets row column acc2) acc)
        (List.replicate img.even_size 0) := rfl

/-- Width of the transform result is the even-cropped width. -/
theorem to_raw_width (img : RgbImage) (p : BayerPattern) :
    (img.to_raw p).width = img.even_width := rfl

/-- Height of the transform result is the even-cropped height. -/
theorem to_raw_height (img : RgbImage) (p : BayerPattern) :
    (img.to_raw p).height = img.even_height := rfl

/-- The transform records the pattern it was given. -/
theorem to_raw_bayer_pattern (img : RgbImage) (p : BayerPattern) :
    (img.to_raw p).bayer_pattern = p := rfl

/-- The even-cropped width is even. -/
theorem even_width_even (img : RgbImage) : img.even_width % 2 = 0 := by
  unfold RgbImage.even_width
  split <;> omega

/-- The even-cropped height is even. -/
theorem even_height_even (img : RgbImage) : img.even_height % 2 = 0 := by
  unfold RgbImage.even_height
  split <;> omega

/-- Members of `stepBy2 n` are even and below `n`. -/
theorem mem_stepBy2 {x n : Nat} (h : x ∈ stepBy2 n) : x % 2 = 0 ∧ x < n := by
  unfold stepBy2 at h
  simp only [List.mem_map, List.mem_range] at h
  obtain ⟨k, hk, rfl⟩ := h
  omega

/-- The output buffer length equals `even_size`. -/
theorem to_raw_data_length (img : RgbImage) (p : BayerPattern) :
    (img.to_raw p).data.length = img.even_size := by
  rw [to_raw_data]
  refine foldl_inv (fun l : List Nat => l.length = img.even_size) _ _ _ ?_
    (by simp)
  intro acc row _ hacc
  refine foldl_inv (fun l : List Nat => l.length = img.even_size) _ _ _ ?_ hacc
  intro acc2 column _ hacc2
  rw [length_writeTile]
  exact hacc2

/-- A `getD` lookup is a member of the list or the default. -/
theorem getD_mem_or_eq (l : List Nat) (k d : Nat) :
    l.getD k d ∈ l ∨ l.getD k d = d := by
  rw [List.getD_eq_getElem?_getD]
  cases hx : l[k]? with
  | none => right; rfl
  | some x =>
    left
    simp only [Option.getD_some]
    exact List.getElem?_mem hx

/-- Every channel offset of every pattern is a channel index below 3. -/
theorem color_offsets_getD_lt (p : BayerPattern) (k : Nat) :
    p.color_offsets.getD k 0 < 3 := by
  rcases getD_mem_or_eq p.color_offsets k 0 with h | h
  · cases p <;> (simp [BayerPattern.color_offsets] at h ⊢; omega)
  · omega

/-- The channel multiplier is at least 3. -/
theorem multiplier_ge_three (ct : ColorType) : 3 ≤ ct.multiplier := by
  cases ct <;> simp [ColorType.multiplier]

/-- An interleaved byte index `j * m + c` with channel `c < m` stays below
`B * m` when pixel index `j` is below `B`. -/
theorem sample_index_bound {j m c B : Nat} (hc : c < m) (hj : j + 1 ≤ B) :
    j * m + c < B * m := by
  have h1 : (j + 1) * m = j * m + m := by ring
  have h2 : (j + 1) * m ≤ B * m := Nat.mul_le_mul_right m hj
  linarith

/-- Provenance of one raw sample: either the initial zero, or a source byte
(at one of the fetched indices) left-shifted by `shift` in u16 arithmetic. -/
def shiftedSample (img : RgbImage) (p : BayerPattern) (shift s : Nat) : Prop :=
  s = 0 ∨ ∃ i ∈ img.fetchIndices p, s = img.data.getD i 0 * 2 ^ shift % 65536

/-- A property of all elements survives `List.set` with a value satisfying it. -/
theorem all_mem_set {α : Type} {P : α → Prop} {l : List α} {i : Nat} {v : α}
    (hl : ∀ s ∈ l, P s) (hv : P v) : ∀ s ∈ l.set i v, P s := by
  intro s hs
  rcases List.mem_or_eq_of_mem_set hs with h | h
  · exact hl s h
  · exact h ▸ hv

/-- One tile of writes preserves the provenance invariant when the tile comes
from the iteration that `to_raw` (and `fetchIndices`) performs. -/
theorem writeTile_shifted (img : RgbImage) (p : BayerPattern) (shift : Nat)
    {row column : Nat}
    (hrow : row ∈ stepBy2 img.even_height)
    (hcol : column ∈ stepBy2 img.even_width)
    {raw : List Nat}
    (hraw : ∀ s ∈ raw, shiftedSample img p shift s) :
    ∀ s ∈ writeTile img.data shift img.color_type.multiplier
        (if img.width % 2 = 0 then 0 else row) img.even_width
        p.color_offsets row column raw,
      shiftedSample img p shift s := by
  have htile : ∀ i ∈ tileFetchIndices img.color_type.multiplier
      (if img.width % 2 = 0 then 0 else row) img.even_width
      p.color_offsets row column, i ∈ img.fetchIndices p := by
    intro i hi
    unfold RgbImage.fetchIndices
    exact List.mem_flatMap.mpr ⟨row, hrow, List.mem_flatMap.mpr ⟨column, hcol, hi⟩⟩
  unfold writeTile writeSample
  apply all_mem_set
  apply all_mem_set
  apply all_mem_set
  apply all_mem_set
  · exact hraw
  · exact Or.inr ⟨_, htile _ (by simp [tileFetchIndices]), rfl⟩
  · exact Or.inr ⟨_, htile _ (by simp [tileFetchIndices]), rfl⟩
  · exact Or.inr ⟨_, htile _ (by simp [tileFetchIndices]), rfl⟩
  · exact Or.inr ⟨_, htile _ (by simp [tileFetchIndices]), rfl⟩

/-- Every sample of the transform output satisfies the provenance invariant. -/
theorem to_raw_samples_shifted (img : RgbImage) (p : BayerPattern) :
    ∀ s ∈ (img.to_raw p).data,
      shiftedSample img p (16 - img.bit_depth.to_u32) s := by
  rw [to_raw_data]
  refine foldl_inv
    (fun l : List Nat => ∀ s ∈ l, shiftedSample img p (16 - img.bit_depth.to_u32) s)
    _ _ _ ?_ ?_
  · intro acc row hrow hacc
    refine foldl_inv
      (fun l : List Nat => ∀ s ∈ l, shiftedSample img p (16 - img.bit_depth.to_u32) s)
      _ _ _ ?_ hacc
    intro acc2 column hcol hacc2
    exact writeTile_shifted img p _ hrow hcol hacc2
  · intro s hs
    exact Or.inl (List.eq_of_mem_replicate hs)

/-- Folding with list append of per-element blocks is `flatMap`. -/
theorem foldl_append_eq_flatMap {α β : Type} (f : α → List β) :
    ∀ (l : List α) (init : List β),
      l.foldl (fun acc v => acc ++ f v) init = init ++ l.flatMap f
  | [], init => by simp
  | x :: xs, init => by
    have ih := foldl_append_eq_flatMap f xs (init ++ f x)
    simp only [List.foldl_cons, List.flatMap_cons] at ih ⊢
    rw [ih, List.append_assoc]

/-- A grayscale header, used to exercise the unsupported-color-type branch. -/
def grayInfo : PngInfo :=
  { width := 1, height := 1, color_type := PngColorType.Grayscale,
    bit_depth := BitDepth.Eight }

/-- C1: for the 8-bit 2x2 RGB image whose every pixel is R = 0xAA, G = 0xBB,
B = 0xCC, pattern RGGB yields samples 0xAA00, 0xBB00, 0xBB00, 0xCC00 at the
row-major positions (0,0), (0,1), (1,0), (1,1) (indices 0, 1, 2, 3): each
source byte left-shifted by 8 = 16 - 8. -/
theorem mosaic_2x2_solid_rggb :
    (img2x2.to_raw BayerPattern.RGGB).data.getD 0 0 = 0xAA00 ∧
    (img2x2.to_raw BayerPattern.RGGB).data.getD 1 0 = 0xBB00 ∧
    (img2x2.to_raw BayerPattern.RGGB).data.getD 2 0 = 0xBB00 ∧
    (img2x2.to_raw BayerPattern.RGGB).data.getD 3 0 = 0xCC00 ∧
    (img2x2.to_raw BayerPattern.RGGB).data = [0xAA00, 0xBB00, 0xBB00, 0xCC00] := by
  decide

/-- C2: the StripByteCounts LONG value written by `save_as_dng` equals
`width * height * 2` (whenever that product fits u32, as the source's u32
arithmetic assumes), and the strip payload built by the writer is exactly
the row-major sample sequence serialized two bytes each, least-significant
byte first. -/
theorem dng_strip_layout (raw : RawImage)
    (h : raw.width * raw.height * 2 < 4294967296) :
    raw.stripByteCountsValue = raw.width * raw.height * 2 ∧
    raw.image_bytes = raw.data.flatMap u16LEBytes := by
  constructor
  · exact Nat.mod_eq_of_lt h
  · have h2 := foldl_append_eq_flatMap u16LEBytes raw.data []
    simpa [RawImage.image_bytes] using h2

/-- Witness for C2 at the concrete 2x2 raw image. -/
theorem dng_strip_layout_witness :
    raw2x2.stripByteCountsValue = raw2x2.width * raw2x2.height * 2 ∧
    raw2x2.image_bytes = raw2x2.data.flatMap u16LEBytes :=
  dng_strip_layout raw2x2 (by decide)

/-- Counterexample to C3: on the odd-width 3x2 image the transform fetches
source byte index 7 (it is in the read footprint `fetchIndices`, reached by
the bottom-left write of the first tile).  Byte 7 belongs to source pixel
7 / 3 = 2, whose column 2 % 3 = 2 equals `width - 1`: a pixel of the
dropped last column, contradicting the claim that no output sample is
fetched from the dropped column. -/
theorem odd_width_fetches_dropped_column :
    7 ∈ img3x2.fetchIndices BayerPattern.RGGB ∧
    7 / 3 % img3x2.width = img3x2.width - 1 ∧
    7 < img3x2.data.length := by
  decide

/-- C3 amended: output dimensions are `width - 1` and/or `height - 1` when the
source dimensions are odd; and when the width is even (so only the last row
can be dropped) every fetched source byte index lies strictly below the
bytes of the dropped last row, i.e. below `width * even_height * multiplier`.
For odd width the corresponding no-fetch guarantee is false (see the
counterexample). -/
theorem to_raw_odd_dimensions (img : RgbImage) (p : BayerPattern) :
    (img.width % 2 = 1 → (img.to_raw p).width = img.width - 1) ∧
    (img.height % 2 = 1 → (img.to_raw p).height = img.height - 1) ∧
    (img.width % 2 = 0 →
      ∀ i ∈ img.fetchIndices p,
        i < img.width * img.even_height * img.color_type.multiplier) := by
  refine ⟨?_, ?_, ?_⟩
  · intro h
    have hne : ¬ img.width % 2 = 0 := by omega
    rw [to_raw_width]
    unfold RgbImage.even_width
    rw [if_neg hne]
  · intro h
    have hne : ¬ img.height % 2 = 0 := by omega
    rw [to_raw_height]
    unfold RgbImage.even_height
    rw [if_neg hne]
  · intro hw i hi
    unfold RgbImage.fetchIndices at hi
    rw [List.mem_flatMap] at hi
    obtain ⟨row, hrow, hi⟩ := hi
    rw [List.mem_flatMap] at hi
    obtain ⟨column, hcol, hi⟩ := hi
    rw [if_pos hw] at hi
    have hre := mem_stepBy2 hrow
    have hce := mem_stepBy2 hcol
    have heh : img.even_height % 2 = 0 := even_height_even img
    have hew : img.even_width % 2 = 0 := even_width_even img
    have hewW : img.even_width = img.width := by
      unfold RgbImage.even_width
      rw [if_pos hw]
    have hrow2 : row + 2 ≤ img.even_height := by omega
    have hcol2 : column + 2 ≤ img.even_width := by omega
    have hm := multiplier_ge_three img.color_type
    have h1 : (row + 2) * img.even_width ≤ img.even_height * img.even_width :=
      Nat.mul_le_mul_right img.even_width hrow2
    have h2 : (row + 2) * img.even_width
        = row * img.even_width + 2 * img.even_width := by ring
    have h3 : img.width * img.even_height
        = img.even_height * img.even_width := by rw [← hewW]; ring
    have hkey : row * img.even_width + column + img.even_width + 2
        ≤ img.width * img.even_height := by linarith
    simp only [tileFetchIndices, srcIndex, List.mem_cons, List.not_mem_nil,
      or_false, Nat.add_zero] at hi
    rcases hi with rfl | rfl | rfl | rfl
    · exact sample_index_bound (lt_of_lt_of_le (color_offsets_getD_lt p 0) hm)
        (by linarith)
    · exact sample_index_bound (lt_of_lt_of_le (color_offsets_getD_lt p 1) hm)
        (by linarith)
    · exact sample_index_bound (lt_of_lt_of_le (color_offsets_getD_lt p 3) hm)
        (by linarith)
    · exact sample_index_bound (lt_of_lt_of_le (color_offsets_getD_lt p 2) hm)
        (by linarith)

/-- Witness for C3 on the even-width, odd-height 2x3 image: the output height
is cropped to 2 and the fetched index 0 lies below the last-row cutoff. -/
theorem to_raw_odd_dimensions_witness :
    (img2x3.to_raw BayerPattern.RGGB).height = img2x3.height - 1 ∧
    (0 : Nat) < img2x3.width * img2x3.even_height * img2x3.color_type.multiplier := by
  have h := to_raw_odd_dimensions img2x3 BayerPattern.RGGB
  exact ⟨h.2.1 (by decide), h.2.2 (by decide) 0 (by decide)⟩

/-- C4: the transform uses `shift = 16 - bit_depth`; every output sample is a
source byte value (as a 16-bit integer, i.e. modulo 2 ^ 16) left-shifted by
that amount — either a byte fetched at one of the transform's source
indices, or the initial zero — and consequently every output sample has its
low `16 - bit_depth` bits equal to zero (for depth 16 the sample is stored
unshifted, for depth 8 it is shifted left by 8). -/
theorem to_raw_shift_normalized (img : RgbImage) (p : BayerPattern) :
    ∀ s ∈ (img.to_raw p).data,
      s % 2 ^ (16 - img.bit_depth.to_u32) = 0 ∧
      (s = 0 ∨ ∃ i ∈ img.fetchIndices p,
        s = img.data.getD i 0 * 2 ^ (16 - img.bit_depth.to_u32) % 2 ^ 16) := by
  intro s hs
  have h := to_raw_samples_shifted img p s hs
  unfold shiftedSample at h
  have h65536 : (65536 : Nat) = 2 ^ 16 := by norm_num
  constructor
  · rcases h with rfl | ⟨i, _, rfl⟩
    · simp
    · have hsh : 16 - img.bit_depth.to_u32 ≤ 16 := Nat.sub_le _ _
      have hdvd : 2 ^ (16 - img.bit_depth.to_u32) ∣ 65536 := by
        rw [h65536]
        exact pow_dvd_pow 2 hsh
      rw [Nat.mod_mod_of_dvd _ hdvd]
      exact Nat.mul_mod_left _ _
  · rcases h with rfl | ⟨i, hi, rfl⟩
    · exact Or.inl rfl
    · exact Or.inr ⟨i, hi, by rw [h65536]⟩

/-- Witness for C4: the sample 0xAA00 of the 2x2 test output has its low
8 = 16 - 8 bits zero. -/
theorem to_raw_shift_normalized_witness :
    (0xAA00 : Nat) % 2 ^ (16 - img2x2.bit_depth.to_u32) = 0 :=
  (to_raw_shift_normalized img2x2 BayerPattern.RGGB 0xAA00 (by decide)).1

/-- C5: the transform output has width `width - width % 2`, height
`height - height % 2`, and its buffer length is exactly their product (so
even inputs are not cropped and a zero-sized image gives a zero-length
buffer). -/
theorem to_raw_dimensions (img : RgbImage) (p : BayerPattern) :
    (img.to_raw p).width = img.width - img.width % 2 ∧
    (img.to_raw p).height = img.height - img.height % 2 ∧
    (img.to_raw p).data.length = (img.to_raw p).width * (img.to_raw p).height := by
  refine ⟨?_, ?_, ?_⟩
  · rw [to_raw_width]
    unfold RgbImage.even_width
    split <;> omega
  · rw [to_raw_height]
    unfold RgbImage.even_height
    split <;> omega
  · rw [to_raw_width, to_raw_height, to_raw_data_length]
    rfl

/-- Counterexample to C6: when the external `write_to` reports an I/O failure,
`save_as_dng` aborts (the Rust source calls `.unwrap()`, a panic) instead of
returning an I/O error value to the caller; indeed its Rust signature
returns `()`, not `Result<(), IoError>`. -/
theorem save_as_dng_io_failure_aborts :
    raw2x2.save_as_dng WriteOutcome.ioFailure = SaveResult.aborted := rfl

/-- C6 amended: `save_as_dng` returns no error value: it writes the strip
payload `image_bytes` when the destination write succeeds and terminates
the program on an I/O failure. -/
theorem save_as_dng_behavior (raw : RawImage) :
    raw.save_as_dng WriteOutcome.success = SaveResult.written raw.image_bytes ∧
    raw.save_as_dng WriteOutcome.ioFailure = SaveResult.aborted :=
  ⟨rfl, rfl⟩

/-- C7: pattern parsing is case-insensitive and whitespace-trimmed: "rggb",
" RGGB " and "RgGb" all parse to RGGB; each of the four literals parses to
its variant; and any input that does not trim-and-uppercase to one of the
four literals is rejected (the source's catch-all arm, a fatal panic,
modelled as `none`). -/
theorem from_str_parsing :
    (BayerPattern.from_str ("rggb") = some BayerPattern.RGGB ∧
     BayerPattern.from_str (" RGGB ") = some BayerPattern.RGGB ∧
     BayerPattern.from_str ("RgGb") = some BayerPattern.RGGB) ∧
    (BayerPattern.from_str ("RGGB") = some BayerPattern.RGGB ∧
     BayerPattern.from_str ("BGGR") = some BayerPattern.BGGR ∧
     BayerPattern.from_str ("GRBG") = some BayerPattern.GRBG ∧
     BayerPattern.from_str ("GBRG") = some BayerPattern.GBRG) ∧
    BayerPattern.from_str ("XYZZ") = none ∧
    (∀ s : String,
      rustTrim (rustToUppercase s) ∉
        (["RGGB", "BGGR", "GRBG", "GBRG"] : List String) →
      BayerPattern.from_str s = none) := by
  refine ⟨by decide, by decide, by decide, ?_⟩
  intro s hs
  simp only [List.mem_cons, List.not_mem_nil, or_false, not_or] at hs
  obtain ⟨h1, h2, h3, h4⟩ := hs
  simp [BayerPattern.from_str, h1, h2, h3, h4]

/-- Witness for C7: a fifth string, not among the four literals, is rejected. -/
theorem from_str_parsing_witness : BayerPattern.from_str ("xyzzy") = none :=
  from_str_parsing.2.2.2 ("xyzzy") (by decide)

/-- Counterexample to C8: a pattern-parse failure is not reported to the
caller as an error kind: `from_str` has no error return (its Rust catch-all
arm terminates the program with a panic, modelled as `none`). -/
theorem pattern_parse_failure_not_returned :
    BayerPattern.from_str ("XYZZ") = none := by
  decide

/-- C8 amended: source-open, corrupt-stream and unsupported-color-type
failures are each returned to the caller as distinct named error kinds
before any transform work (the decode either fully fails or fully
succeeds), while a pattern-parse failure terminates the program instead of
being returned. -/
theorem from_file_error_kinds :
    RgbImage.from_file false none none
      = Except.error ("PNG image couldn\x27t be opened.") ∧
    RgbImage.from_file true none none
      = Except.error ("This PNG file appears to be corrupted.") ∧
    RgbImage.from_file true (some grayInfo) none
      = Except.error ("PNG image needs to be RGB or RGBA Color Type.") ∧
    ("PNG image couldn\x27t be opened." ≠ "This PNG file appears to be corrupted." ∧
     "PNG image couldn\x27t be opened." ≠ "PNG image needs to be RGB or RGBA Color Type." ∧
     "This PNG file appears to be corrupted." ≠ "PNG image needs to be RGB or RGBA Color Type.") ∧
    BayerPattern.from_str (" xyzz ") = none := by
  exact ⟨rfl, rfl, rfl, ⟨by decide, by decide, by decide⟩, by decide⟩

/-- C9: the transform is deterministic: two applications to equal inputs with
equal patterns produce outputs with identical dimensions, identical sample
sequences and identical recorded patterns (it is a pure function with no
internal state). -/
theorem to_raw_deterministic (img1 img2 : RgbImage) (p1 p2 : BayerPattern)
    (h1 : img1 = img2) (h2 : p1 = p2) :
    (img1.to_raw p1).width = (img2.to_raw p2).width ∧
    (img1.to_raw p1).height = (img2.to_raw p2).height ∧
    (img1.to_raw p1).data = (img2.to_raw p2).data ∧
    (img1.to_raw p1).bayer_pattern = (img2.to_raw p2).bayer_pattern := by
  subst h1
  subst h2
  exact ⟨rfl, rfl, rfl, rfl⟩

/-- Witness for C9 at the concrete 2x2 image. -/
theorem to_raw_deterministic_witness :
    (img2x2.to_raw BayerPattern.RGGB).data = (img2x2.to_raw BayerPattern.RGGB).data :=
  (to_raw_deterministic img2x2 img2x2 BayerPattern.RGGB BayerPattern.RGGB rfl rfl).2.2.1

/-- C10: for every pattern variant, parsing its display string returns the
same variant, and its color-offset table has exactly four entries holding
the red index 0 once, the green index 1 twice and the blue index 2 once. -/
theorem display_from_str_roundtrip :
    ∀ p : BayerPattern,
      BayerPattern.from_str p.display = some p ∧
      p.color_offsets.length = 4 ∧
      p.color_offsets.count 0 = 1 ∧
      p.color_offsets.count 1 = 2 ∧
      p.color_offsets.count 2 = 1 := by
  intro p
  cases p <;> exact (by decide)

end Emubayer
